import Mathlib

/-!
Shallow embedding of `intelelm/model/base_elm.py`.

Matrices (2-D numpy arrays) are lists of rows (row-major).  The element type is
kept generic for the pure data-movement operations (encode/decode only reshape
and concatenate; no arithmetic touches the stored values), and is `ℚ` for the
numeric forward pass.  Python exceptions are modelled with `Except PyErr`.
-/

/-- Python exception kinds raised by the embedded code paths. -/
inductive PyErr : Type
  | valueError (msg : String)
  | typeError (msg : String)
  | linAlgError
deriving DecidableEq, Repr

/-- Boolean success test for an `Except` result (an `error` models a raised exception). -/
def exceptOk {ε β : Type} : Except ε β → Bool
  | .ok _ => true
  | .error _ => false

instance {ε β : Type} [DecidableEq ε] [DecidableEq β] : DecidableEq (Except ε β) := by
  intro a b
  cases a <;> cases b
  case ok.ok x y =>
    exact if h : x = y then .isTrue (by rw [h]) else .isFalse (by simp [h])
  case error.error x y =>
    exact if h : x = y then .isTrue (by rw [h]) else .isFalse (by simp [h])
  all_goals exact .isFalse (by simp)

/-- A 2-D numpy array: list of rows, row-major. -/
abbrev Mat (α : Type) := List (List α)

/-- Row-major flattening, as `ndarray.flatten()` on a 2-D array. -/
def flattenMat {α : Type} (m : Mat α) : List α := m.flatten

/-- Split a flat list into `r` rows of `c` columns each (row-major). -/
def toRows {α : Type} (r c : Nat) (xs : List α) : Mat α :=
  match r with
  | 0 => []
  | Nat.succ r => xs.take c :: toRows r c (xs.drop c)

/-- numpy `reshape((r, c))`: raises ValueError unless the input has exactly r*c elements. -/
def reshape2 {α : Type} (xs : List α) (r c : Nat) : Except PyErr (Mat α) :=
  if xs.length = r * c then .ok (toRows r c xs)
  else .error (.valueError "cannot reshape array")

/-- Python slice `v[a:b]` for `a ≤ b`: clips silently at the end of the list. -/
def pyslice {α : Type} (v : List α) (a b : Nat) : List α := (v.drop a).take (b - a)

/-- `MultiLayerELM.encode` (src lines 110-120): flattens each weight matrix, then
concatenates ALL flattened weight matrices followed by ALL bias vectors
(`np.concatenate(flat_weights + flat_biases)`). -/
def encode {α : Type} (weights : List (Mat α)) (biases : List (List α)) : List α :=
  ((weights.map flattenMat) ++ biases).flatten

/-- The parameter-extraction loop of `MultiLayerELM.decode` (src lines 129-149):
walks `layer_sizes` keeping a running `start` offset into the solution vector,
takes `input_size*size` entries and reshapes them into the weight matrix (reshape
raises if the clipped slice is short), then takes `size` entries as the bias with
no length check, then chains `input_size := size`. -/
def decodeLoop {α : Type} (v : List α) :
    Nat → Nat → List Nat → Except PyErr (List (Mat α) × List (List α))
  | _start, _n, [] => .ok ([], [])
  | start, input_size, size :: rest =>
    match reshape2 (pyslice v start (start + input_size * size)) input_size size with
    | .error e => .error e
    | .ok weight =>
      let bias := pyslice v (start + input_size * size) (start + input_size * size + size)
      match decodeLoop v (start + input_size * size + size) size rest with
      | .error e => .error e
      | .ok (ws, bs) => .ok (weight :: ws, bias :: bs)

/-- The weight/bias part of `MultiLayerELM.decode` (src lines 122-149), starting at
offset 0 with the model's fixed `input_size`. -/
def decodeParams {α : Type} (layer_sizes : List Nat) (input_size : Nat) (v : List α) :
    Except PyErr (List (Mat α) × List (List α)) :=
  decodeLoop v 0 input_size layer_sizes

/-- `MultiLayerELM.get_ndim` (src lines 155-168): accumulates
`input_size*size + size` over the layers, chaining `input_size := size`. -/
def get_ndim (layer_sizes : List Nat) (input_size : Nat) : Nat :=
  match layer_sizes with
  | [] => 0
  | size :: rest => input_size * size + size + get_ndim rest size

/-- The layer-interleaved solution-vector layout the spec describes for `encode`:
each layer's flattened weight matrix immediately followed by that same layer's
bias vector.  Stated from the spec's words, to be compared with `encode` above. -/
def specInterleavedLayout {α : Type} : List (Mat α) → List (List α) → List α
  | w :: ws, b :: bs => flattenMat w ++ b ++ specInterleavedLayout ws bs
  | _, _ => []

/-- Claim C1: on a two-hidden-layer network (input_size 1, layer_sizes (1,1),
weights [[1]],[[2]], biases [3],[4]) decode applied to the vector produced by
encode does NOT restore the parameters: encode emits [1,2,3,4] (all weights,
then all biases) while decode slices layer-interleaved, so the decoded biases
pick up weight values.  This refutes the round-trip contract for multiple
hidden layers. -/
theorem decode_encode_roundtrip_fails_on_two_layers :
    decodeParams [1, 1] 1 (encode [[[(1 : ℚ)]], [[2]]] [[3], [4]]) =
      .ok ([[[(1 : ℚ)]], [[3]]], [[2], [4]]) ∧
    decodeParams [1, 1] 1 (encode [[[(1 : ℚ)]], [[2]]] [[3], [4]]) ≠
      .ok ([[[(1 : ℚ)]], [[2]]], [[3], [4]]) := by
  constructor
  · rfl
  · decide

/-- Claim C2: the layout of the vector returned by `encode` is NOT the
layer-interleaved weights-then-bias-per-layer layout, and the interleaved layout
is exactly what `decode` consumes: on the two-layer example `encode` yields
[1,2,3,4] while the interleaved layout is [1,3,2,4], and `decode` applied to the
interleaved vector (not to encode's vector) restores the original parameters. -/
theorem encode_layout_mismatch_two_layers :
    encode [[[(1 : ℚ)]], [[2]]] [[3], [4]] = [1, 2, 3, 4] ∧
    specInterleavedLayout [[[(1 : ℚ)]], [[2]]] [[3], [4]] = [1, 3, 2, 4] ∧
    decodeParams [1, 1] 1 [(1 : ℚ), 3, 2, 4] = .ok ([[[(1 : ℚ)]], [[2]]], [[3], [4]]) ∧
    encode [[[(1 : ℚ)]], [[2]]] [[3], [4]] ≠
      specInterleavedLayout [[[(1 : ℚ)]], [[2]]] [[3], [4]] := by
  refine ⟨rfl, rfl, rfl, ?_⟩
  decide

/-!
Bounds resolution (`BaseMhaElm._get_lb_ub`, src lines 701-716).

Python sequence types keep their runtime tag: `seq * n` repeats a list or a
tuple `n` times but multiplies a numpy array elementwise by `n`.
-/

/-- A Python sequence value accepted by the bounds check `type(lb) in (list, tuple, np.ndarray)`. -/
inductive PySeq : Type
  | list (xs : List ℚ)
  | tuple (xs : List ℚ)
  | ndarray (xs : List ℚ)
deriving DecidableEq, Repr

/-- The stored numeric values of a Python sequence. -/
def PySeq.vals : PySeq → List ℚ
  | .list xs => xs
  | .tuple xs => xs
  | .ndarray xs => xs

/-- `len(s)` of a Python sequence. -/
def PySeq.len (s : PySeq) : Nat := s.vals.length

/-- Python `s * n`: sequence repetition for list/tuple, elementwise scaling for ndarray;
`np.array(. , dtype=float)` then just reads off the values. -/
def seqMulNat (s : PySeq) (n : Nat) : List ℚ :=
  match s with
  | .list xs => (List.replicate n xs).flatten
  | .tuple xs => (List.replicate n xs).flatten
  | .ndarray xs => xs.map (fun q => q * (n : ℚ))

/-- An argument passed as `lb` or `ub`: a sequence, a bare int/float scalar, or anything else. -/
inductive PyBound : Type
  | seq (s : PySeq)
  | num (q : ℚ)
  | other
deriving DecidableEq, Repr

/-- `BaseMhaElm._get_lb_ub` (src lines 701-716), branch for branch: equal-length
sequences of length 1 are multiplied by `problem_size` (repetition for list and
tuple, elementwise scaling for ndarray), equal lengths other than 1 must equal
`problem_size` and pass through unchanged, unequal lengths raise, two bare
scalars are replicated, and any other combination raises. -/
def getLbUb (lb ub : PyBound) (problem_size : Nat) : Except PyErr (List ℚ × List ℚ) :=
  match lb, ub with
  | .seq s1, .seq s2 =>
    if s1.len = s2.len then
      if s1.len = 1 then
        .ok (seqMulNat s1 problem_size, seqMulNat s2 problem_size)
      else if s1.len ≠ problem_size then
        .error (.valueError "Invalid lb and ub. Their length should be equal to 1 or problem_size.")
      else
        .ok (s1.vals, s2.vals)
    else
      .error (.valueError "Invalid lb and ub. They should have the same length.")
  | .num a, .num b =>
    .ok (List.replicate problem_size a, List.replicate problem_size b)
  | _, _ =>
    .error (.valueError "Invalid lb and ub. They should be a number of list/tuple/np.ndarray with size equal to problem_size")

/-- Claim C5: single-element numpy-array bounds are NOT tiled to `problem_size`:
`lb * problem_size` multiplies an ndarray elementwise, so
`lb=np.array([-1]), ub=np.array([1]), problem_size=55` yields the length-1
arrays `[-55]` and `[55]` instead of length-55 arrays of -1 and 1.  The same
call with lists or tuples does tile correctly, as the last conjunct shows. -/
theorem get_lb_ub_ndarray_broadcast_bug :
    getLbUb (.seq (.ndarray [-1])) (.seq (.ndarray [1])) 55 = .ok ([-55], [55]) ∧
    ((-55 : ℚ) ≠ -1 ∧ ([(-55 : ℚ)].length ≠ 55)) ∧
    getLbUb (.seq (.list [-1])) (.seq (.list [1])) 55 =
      .ok (List.replicate 55 (-1), List.replicate 55 1) := by
  refine ⟨?_, ⟨by norm_num, by decide⟩, by decide⟩
  simp only [getLbUb, seqMulNat, PySeq.len, PySeq.vals, List.length_cons,
    List.length_nil, List.map_cons, List.map_nil, if_pos, Except.ok.injEq]
  norm_num

/-- Claim C6: bounds sequences of unequal lengths always raise the
same-length ValueError; nothing is broadcast, truncated or padded. -/
theorem get_lb_ub_length_mismatch_error (s1 s2 : PySeq) (ps : Nat)
    (h : s1.len ≠ s2.len) :
    getLbUb (.seq s1) (.seq s2) ps =
      .error (.valueError "Invalid lb and ub. They should have the same length.") := by
  simp [getLbUb, h]

/-- Witness for C6 at the inputs named by the spec:
`lb=(-1,-2), ub=(1,), problem_size=55` raises the length-mismatch error. -/
theorem get_lb_ub_length_mismatch_error_witness :
    (PySeq.tuple [-1, -2]).len ≠ (PySeq.tuple [1]).len ∧
    getLbUb (.seq (.tuple [-1, -2])) (.seq (.tuple [1])) 55 =
      .error (.valueError "Invalid lb and ub. They should have the same length.") :=
  ⟨by decide, get_lb_ub_length_mismatch_error (.tuple [-1, -2]) (.tuple [1]) 55 (by decide)⟩

/-!
Objective resolution (`BaseMhaElm._get_minmax`, src lines 718-728).

The two catalogs `SUPPORTED_REG_OBJECTIVES` and `SUPPORTED_CLS_OBJECTIVES` come
from the external permetrics wrappers; they are parameters here, modelled as
association lists of metric name to direction with dict lookup as first match.
The original message text "obj_name can not be None" appears here without its
contraction.
-/

/-- `BaseMhaElm._get_minmax` (src lines 718-728): a missing name raises, else the
regression catalog is consulted first, then the classification catalog, and a
name in neither raises an error pointing at the permetrics catalog. -/
def getMinmax (reg cls : List (String × String)) (objName : Option String) :
    Except PyErr String :=
  match objName with
  | none => .error (.valueError "obj_name can not be None")
  | some name =>
    match reg.lookup name with
    | some m => .ok m
    | none =>
      match cls.lookup name with
      | some m => .ok m
      | none => .error (.valueError "obj_name is not supported. Please check the library: permetrics to see the supported objective function.")

/-- Claim C7: `_get_minmax` raises on a null name; returns the regression
catalog direction when the name is a regression objective; falls back to the
classification catalog otherwise; and raises an error naming the permetrics
catalog when the name is in neither catalog. -/
theorem get_minmax_resolution :
    (∀ reg cls : List (String × String),
      getMinmax reg cls none = .error (.valueError "obj_name can not be None")) ∧
    (∀ (reg cls : List (String × String)) (name m : String),
      reg.lookup name = some m → getMinmax reg cls (some name) = .ok m) ∧
    (∀ (reg cls : List (String × String)) (name m : String),
      reg.lookup name = none → cls.lookup name = some m →
        getMinmax reg cls (some name) = .ok m) ∧
    (∀ (reg cls : List (String × String)) (name : String),
      reg.lookup name = none → cls.lookup name = none →
        getMinmax reg cls (some name) =
          .error (.valueError "obj_name is not supported. Please check the library: permetrics to see the supported objective function.")) := by
  refine ⟨fun reg cls => rfl, ?_, ?_, ?_⟩
  · intro reg cls name m h
    simp [getMinmax, h]
  · intro reg cls name m h1 h2
    simp [getMinmax, h1, h2]
  · intro reg cls name h1 h2
    simp [getMinmax, h1, h2]

/-- Witness for C7 on concrete catalogs: MSE resolves through the regression
catalog to min, AS falls back to the classification catalog and resolves to
max, a null name raises, and an unknown name raises the permetrics error. -/
theorem get_minmax_resolution_witness :
    getMinmax [("MSE", "min")] [("AS", "max")] none =
      .error (.valueError "obj_name can not be None") ∧
    getMinmax [("MSE", "min")] [("AS", "max")] (some "MSE") = .ok "min" ∧
    getMinmax [("MSE", "min")] [("AS", "max")] (some "AS") = .ok "max" ∧
    getMinmax [("MSE", "min")] [("AS", "max")] (some "QQ") =
      .error (.valueError "obj_name is not supported. Please check the library: permetrics to see the supported objective function.") :=
  ⟨get_minmax_resolution.1 _ _,
   get_minmax_resolution.2.1 _ _ "MSE" "min" (by decide),
   get_minmax_resolution.2.2.1 _ _ "AS" "max" (by decide) (by decide),
   get_minmax_resolution.2.2.2 _ _ "QQ" (by decide) (by decide)⟩

/-!
`BaseElm.__init__` layer_sizes normalization (src lines 207-214).

Python values are modelled with their runtime type tag; a Python bool is an
instance of int under isinstance, so it carries no separate constructor here.
The error result models the ValueError being raised before any attribute
assignment happens (no state is produced).  The type name interpolated into the
original message is elided.
-/

/-- A Python value passed as `layer_sizes` to `BaseElm.__init__`. -/
inductive PyVal : Type
  | int (n : Int)
  | list (xs : List Int)
  | tuple (xs : List Int)
  | ndarray (xs : List Int)
  | str (s : String)
  | float (q : ℚ)
  | dict
deriving DecidableEq, Repr

/-- `BaseElm.__init__` (src lines 207-214): reject anything that is not an
int/list/tuple/ndarray with a ValueError, wrap a bare int into a one-element
Python list, and store list/tuple/ndarray unchanged. -/
def baseElmLayerSizes (layer_sizes : PyVal) : Except PyErr PyVal :=
  match layer_sizes with
  | .int n => .ok (.list [n])
  | .list xs => .ok (.list xs)
  | .tuple xs => .ok (.tuple xs)
  | .ndarray xs => .ok (.ndarray xs)
  | _ => .error (.valueError "layer_sizes should be an int, list, tuple, or np.ndarray.")

/-- Claim C10: the constructor wraps a bare integer into a one-element list,
passes lists, tuples and numpy arrays through unchanged, and raises a
ValueError for a string, float or dict before any state is set. -/
theorem layer_sizes_normalization :
    (∀ n : Int, baseElmLayerSizes (.int n) = .ok (.list [n])) ∧
    (∀ xs : List Int, baseElmLayerSizes (.list xs) = .ok (.list xs)) ∧
    (∀ xs : List Int, baseElmLayerSizes (.tuple xs) = .ok (.tuple xs)) ∧
    (∀ xs : List Int, baseElmLayerSizes (.ndarray xs) = .ok (.ndarray xs)) ∧
    (∀ s : String, baseElmLayerSizes (.str s) =
      .error (.valueError "layer_sizes should be an int, list, tuple, or np.ndarray.")) ∧
    (∀ q : ℚ, baseElmLayerSizes (.float q) =
      .error (.valueError "layer_sizes should be an int, list, tuple, or np.ndarray.")) ∧
    baseElmLayerSizes .dict =
      .error (.valueError "layer_sizes should be an int, list, tuple, or np.ndarray.") := by
  exact ⟨fun n => rfl, fun xs => rfl, fun xs => rfl, fun xs => rfl,
    fun s => rfl, fun q => rfl, rfl⟩

/-!
Numeric part: forward pass and the beta recomputation.

The Moore-Penrose pseudoinverse `np.linalg.pinv` is an external floating-point
routine; it is modelled as an oracle `pinvF : Mat ℚ → Option (Mat ℚ)` whose
`none` result stands for the raised `numpy.linalg.LinAlgError`.  The activation
function is likewise a parameter, as in the source it is looked up by name from
the external activation catalog.
-/

/-- Dot product of two equal-length vectors. -/
def dotL (xs ys : List ℚ) : ℚ := (List.zipWith (fun a b => a * b) xs ys).sum

/-- Transpose of a rectangular matrix (empty input transposes to empty). -/
def transposeM (m : Mat ℚ) : Mat ℚ :=
  match m with
  | [] => []
  | r :: _ => (List.range r.length).map (fun j => m.map (fun row => row.getD j 0))

/-- `np.dot` on 2-D arrays: matrix product. -/
def matmul (A B : Mat ℚ) : Mat ℚ :=
  A.map (fun row => (transposeM B).map (fun col => dotL row col))

/-- numpy addition of a 1-D bias to each row of a 2-D array: a length-1 bias
broadcasts across the row, otherwise entries add pointwise.  (Broadcast of
mismatched shapes raises in numpy; every theorem below applies this at matching
shapes or at the length-1 broadcast.) -/
def addBias (row b : List ℚ) : List ℚ :=
  match b with
  | [q] => row.map (fun x => x + q)
  | _ => List.zipWith (fun x y => x + y) row b

/-- `MultiLayerELM._forward` (src lines 62-66): per hidden layer,
`X := act(X . weights[i] + biases[i])`, walking weights and biases in step. -/
def forward (actF : ℚ → ℚ) : List (Mat ℚ) → List (List ℚ) → Mat ℚ → Mat ℚ
  | [], _, X => X
  | _, [], X => X
  | w :: ws, b :: bs, X =>
    forward actF ws bs ((matmul X w).map (fun row => (addBias row b).map actF))

/-- `MultiLayerELM.decode` in full (src lines 122-153): restore the weights and
biases from the solution vector, then recompute `beta = pinv(H) . y` on the
training data, where a failing pseudoinverse propagates as a raised
LinAlgError — the source wraps nothing in a handler. -/
def decodeFull (pinvF : Mat ℚ → Option (Mat ℚ)) (actF : ℚ → ℚ)
    (layer_sizes : List Nat) (input_size : Nat) (v : List ℚ) (X y : Mat ℚ) :
    Except PyErr (List (Mat ℚ) × List (List ℚ) × Mat ℚ) :=
  match decodeParams layer_sizes input_size v with
  | .error e => .error e
  | .ok (ws, bs) =>
    match pinvF (forward actF ws bs X) with
    | none => .error .linAlgError
    | some Hp => .ok (ws, bs, matmul Hp y)

/-- Modelled from the spec: the concrete fitness evaluator is overridden outside
this file (`BaseMhaElm.fitness_function`, src lines 698-699, is a stub), and the
spec describes it as: decode the candidate into the network, recompute
predictions over the held training inputs, and score them against the training
targets with the configured objective.  The decode step is the source
`MultiLayerELM.decode` embedded above; no step installs an exception handler. -/
def fitnessEval (pinvF : Mat ℚ → Option (Mat ℚ)) (actF : ℚ → ℚ)
    (score : Mat ℚ → ℚ) (layer_sizes : List Nat) (input_size : Nat)
    (X y : Mat ℚ) (solution : List ℚ) : Except PyErr ℚ :=
  match decodeFull pinvF actF layer_sizes input_size solution X y with
  | .error e => .error e
  | .ok (ws, bs, beta) => .ok (score (matmul (forward actF ws bs X) beta))

/-- Claim C3 (amended): when the pseudoinverse fails on the hidden
representation decoded from a candidate, the fitness evaluation propagates the
error — it does not return a sentinel worst-fitness value. -/
theorem fitness_pinv_failure_propagates (pinvF : Mat ℚ → Option (Mat ℚ))
    (actF : ℚ → ℚ) (score : Mat ℚ → ℚ) (ls : List Nat) (n : Nat) (X y : Mat ℚ)
    (v : List ℚ) (ws : List (Mat ℚ)) (bs : List (List ℚ))
    (h1 : decodeParams ls n v = .ok (ws, bs))
    (h2 : pinvF (forward actF ws bs X) = none) :
    fitnessEval pinvF actF score ls n X y v = .error PyErr.linAlgError := by
  simp [fitnessEval, decodeFull, h1, h2]

/-- Witness for the amended C3 at a concrete decodable candidate and a
pseudoinverse oracle that fails. -/
theorem fitness_pinv_failure_propagates_witness :
    decodeParams [1] 1 [(1 : ℚ), 2] = .ok ([[[1]]], [[2]]) ∧
    (fun _ : Mat ℚ => (none : Option (Mat ℚ))) (forward id [[[1]]] [[2]] [[1]]) = none ∧
    fitnessEval (fun _ => none) id (fun _ => 0) [1] 1 [[1]] [[1]] [(1 : ℚ), 2] =
      .error PyErr.linAlgError :=
  ⟨by decide, rfl,
   fitness_pinv_failure_propagates (fun _ => none) id (fun _ => 0) [1] 1 [[1]] [[1]]
     [(1 : ℚ), 2] [[[1]]] [[2]] (by decide) rfl⟩

/-- Claim C3 counterexample: at the concrete candidate [5, 6] on a 1-input,
1-hidden-unit network whose pseudoinverse computation fails, the fitness
evaluation raises (returns the propagated LinAlgError), so it does not return
any finite sentinel worst-fitness value. -/
theorem fitness_pinv_error_not_sentinel :
    fitnessEval (fun _ => none) id (fun _ => 0) [1] 1 [[1]] [[1]] [(5 : ℚ), 6] =
      .error PyErr.linAlgError := by
  have h : decodeParams [1] 1 [(5 : ℚ), 6] = .ok ([[[5]]], [[6]]) := by decide
  simp [fitnessEval, decodeFull, h]

/-!
Length behavior of decode (claim C4): the source never compares the vector
length against `get_ndim`; reshape is the only check, and a too-long vector is
consumed prefix-first with the excess silently ignored.
-/

/-- Offset-free restatement of `decodeLoop`: instead of a running start index it
drops the consumed entries.  `decodeLoop_eq_loopD` proves it equal to the
source-shaped loop; it exists only to make induction convenient. -/
def decodeLoopD {α : Type} : List α → Nat → List Nat → Except PyErr (List (Mat α) × List (List α))
  | _, _, [] => .ok ([], [])
  | v, input_size, size :: rest =>
    match reshape2 (v.take (input_size * size)) input_size size with
    | .error e => .error e
    | .ok weight =>
      let bias := (v.drop (input_size * size)).take size
      match decodeLoopD (v.drop (input_size * size + size)) size rest with
      | .error e => .error e
      | .ok (ws, bs) => .ok (weight :: ws, bias :: bs)

theorem decodeLoop_eq_loopD {α : Type} (ls : List Nat) :
    ∀ (v : List α) (start n : Nat),
      decodeLoop v start n ls = decodeLoopD (v.drop start) n ls := by
  induction ls with
  | nil => intro v start n; rfl
  | cons size rest ih =>
    intro v start n
    have hdd : ∀ a b : Nat, (v.drop a).drop b = v.drop (a + b) := fun a b => by
      rw [List.drop_drop, Nat.add_comm]
    have h1 : pyslice v start (start + n * size) = (v.drop start).take (n * size) := by
      simp [pyslice]
    have h2 : pyslice v (start + n * size) (start + n * size + size) =
        ((v.drop start).drop (n * size)).take size := by
      rw [hdd]
      simp [pyslice]
    have h3 : decodeLoop v (start + n * size + size) size rest =
        decodeLoopD ((v.drop start).drop (n * size + size)) size rest := by
      rw [hdd, ← Nat.add_assoc]
      exact ih v (start + n * size + size) size
    simp only [decodeLoop, decodeLoopD, h1, h2, h3]

theorem exceptOk_exists {ε β : Type} {e : Except ε β} (h : exceptOk e = true) :
    ∃ a, e = .ok a := by
  cases e with
  | ok a => exact ⟨a, rfl⟩
  | error err => simp [exceptOk] at h

theorem decodeLoopD_append {α : Type} (ls : List Nat) :
    ∀ (n : Nat) (v extra : List α), v.length = get_ndim ls n →
      decodeLoopD (v ++ extra) n ls = decodeLoopD v n ls ∧
      exceptOk (decodeLoopD v n ls) = true := by
  induction ls with
  | nil => intro n v extra _; exact ⟨rfl, rfl⟩
  | cons size rest ih =>
    intro n v extra h
    simp only [get_ndim] at h
    have htake : (v ++ extra).take (n * size) = v.take (n * size) :=
      List.take_append_of_le_length (by omega)
    have hlen : (v.take (n * size)).length = n * size := by
      rw [List.length_take]
      omega
    have hres : reshape2 (v.take (n * size)) n size =
        .ok (toRows n size (v.take (n * size))) := by
      simp [reshape2, hlen]
    have hdropapp : (v ++ extra).drop (n * size) = v.drop (n * size) ++ extra :=
      List.drop_append_of_le_length (by omega)
    have hbias : ((v ++ extra).drop (n * size)).take size = (v.drop (n * size)).take size := by
      rw [hdropapp]
      exact List.take_append_of_le_length (by rw [List.length_drop]; omega)
    have hdropapp2 : (v ++ extra).drop (n * size + size) = v.drop (n * size + size) ++ extra :=
      List.drop_append_of_le_length (by omega)
    have hlen2 : (v.drop (n * size + size)).length = get_ndim rest size := by
      rw [List.length_drop]
      omega
    have hrec := ih size (v.drop (n * size + size)) extra hlen2
    obtain ⟨p, hp⟩ := exceptOk_exists hrec.2
    simp only [decodeLoopD, htake, hres, hbias, hdropapp2, hrec.1, hp, exceptOk]
    exact ⟨trivial, trivial⟩

/-- Claim C4 (amended): decode never compares the vector length against
`get_ndim`; a solution vector with trailing excess entries beyond `get_ndim`
decodes exactly as its length-ndim prefix does, succeeding and silently
ignoring the excess. -/
theorem decode_ignores_excess_entries {α : Type} (ls : List Nat) (n : Nat)
    (v extra : List α) (h : v.length = get_ndim ls n) :
    decodeParams ls n (v ++ extra) = decodeParams ls n v ∧
    exceptOk (decodeParams ls n v) = true := by
  simp only [decodeParams, decodeLoop_eq_loopD, List.drop_zero]
  exact decodeLoopD_append ls n v extra h

/-- Witness for the amended C4: a correctly sized vector [1, 2] for a 1-input,
1-hidden-unit network decodes the same with or without a trailing excess entry. -/
theorem decode_ignores_excess_entries_witness :
    [(1 : ℚ), 2].length = get_ndim [1] 1 ∧
    (decodeParams [1] 1 ([(1 : ℚ), 2] ++ [3]) = decodeParams [1] 1 [(1 : ℚ), 2] ∧
     exceptOk (decodeParams [1] 1 [(1 : ℚ), 2]) = true) :=
  ⟨by decide, decode_ignores_excess_entries [1] 1 [(1 : ℚ), 2] [3] (by decide)⟩

/-- Claim C4 counterexample: for a 1-input, 1-hidden-unit network (ndim = 2) the
length-3 vector [1, 2, 3] does NOT make decode fail: the full decode, beta
recomputation included, succeeds, silently ignoring the trailing entry. -/
theorem decode_accepts_longer_vector :
    [(1 : ℚ), 2, 3].length ≠ get_ndim [1] 1 ∧
    decodeFull (fun _ => some [[1]]) id [1] 1 [(1 : ℚ), 2, 3] [[1]] [[1]] =
      .ok ([[[(1 : ℚ)]]], [[2]], [[1]]) := by
  constructor
  · decide
  · have h : decodeParams [1] 1 [(1 : ℚ), 2, 3] = .ok ([[[1]]], [[2]]) := by decide
    simp [decodeFull, h, matmul, transposeM, dotL, List.range_succ]

/-!
Weight initialization and the dimension formula (claims C8 and C9).

`np.random.default_rng(seed)` is a deterministic generator: for a fixed seed it
yields a fixed stream of draws.  It is modelled as a stream `Nat → ℚ` plus a
position; `standard_normal` reads the next values and advances the position.
-/

/-- A seeded random generator: the value stream and the current position. -/
structure Gen (α : Type) where
  stream : Nat → α
  pos : Nat

/-- Draw the next `n` values and advance the generator. -/
def genTake {α : Type} (g : Gen α) (n : Nat) : List α × Gen α :=
  ((List.range n).map (fun i => g.stream (g.pos + i)), ⟨g.stream, g.pos + n⟩)

/-- `generator.standard_normal(size=(r, c))`: r*c draws shaped row-major. -/
def standardNormal2 (g : Gen ℚ) (r c : Nat) : Mat ℚ × Gen ℚ :=
  (toRows r c (genTake g (r * c)).1, (genTake g (r * c)).2)

/-- `generator.standard_normal(size)`: a 1-D array of `size` draws. -/
def standardNormal1 (g : Gen ℚ) (n : Nat) : List ℚ × Gen ℚ := genTake g n

/-- `MultiLayerELM._initialize_weights` (src lines 52-60): per layer draw an
(input_size, size) weight matrix then a length-size bias, chaining
`input_size := size` and threading the generator. -/
def initLoop (g : Gen ℚ) (input_size : Nat) : List Nat → List (Mat ℚ) × List (List ℚ) × Gen ℚ
  | [] => ([], [], g)
  | size :: rest =>
    let w := standardNormal2 g input_size size
    let b := standardNormal1 w.2 size
    let r := initLoop b.2 size rest
    (w.1 :: r.1, b.1 :: r.2.1, r.2.2)

/-- The dimension count as the spec states it: the sum over layers of
`layer_sizes[i-1] * layer_sizes[i] + layer_sizes[i]` with `input_size`
substituted at i = 0. -/
def ndimFormula (input_size : Nat) (layer_sizes : List Nat) : Nat :=
  ((input_size :: layer_sizes).zipWith (fun a b => a * b + b) layer_sizes).sum

theorem get_ndim_eq_formula (ls : List Nat) : ∀ n : Nat, get_ndim ls n = ndimFormula n ls := by
  induction ls with
  | nil => intro n; rfl
  | cons size rest ih =>
    intro n
    simp only [get_ndim, ndimFormula, List.zipWith, List.sum_cons]
    rw [ih size]
    simp [ndimFormula]

theorem toRows_flatten {α : Type} : ∀ (r c : Nat) (xs : List α),
    xs.length = r * c → (toRows r c xs).flatten = xs := by
  intro r
  induction r with
  | zero =>
    intro c xs h
    simp only [Nat.zero_mul] at h
    rw [List.length_eq_zero] at h
    subst h
    rfl
  | succ r ih =>
    intro c xs h
    rw [Nat.succ_mul] at h
    have hd : (xs.drop c).length = r * c := by
      rw [List.length_drop]
      omega
    simp only [toRows, List.flatten_cons, ih c (xs.drop c) hd]
    exact List.take_append_drop c xs

theorem encode_length {α : Type} (ws : List (Mat α)) (bs : List (List α)) :
    (encode ws bs).length =
      (ws.map (fun w => (flattenMat w).length)).sum + (bs.map List.length).sum := by
  simp [encode, List.length_flatten, List.map_append, List.sum_append,
    List.map_map, Function.comp_def]

theorem initLoop_encode_length : ∀ (ls : List Nat) (n : Nat) (g : Gen ℚ),
    ((initLoop g n ls).1.map (fun w => (flattenMat w).length)).sum +
      ((initLoop g n ls).2.1.map List.length).sum = get_ndim ls n := by
  intro ls
  induction ls with
  | nil => intro n g; rfl
  | cons size rest ih =>
    intro n g
    have hx : ((genTake g (n * size)).1).length = n * size := by
      simp [genTake]
    have hw : (flattenMat (standardNormal2 g n size).1).length = n * size := by
      simp only [standardNormal2, flattenMat]
      rw [toRows_flatten n size (genTake g (n * size)).1 hx, hx]
    have hb : ((standardNormal1 (standardNormal2 g n size).2 size).1).length = size := by
      simp [standardNormal1, genTake]
    have hrec := ih size (standardNormal1 (standardNormal2 g n size).2 size).2
    simp only [initLoop, List.map_cons, List.sum_cons, get_ndim, hw, hb]
    omega

/-- Claim C8: `get_ndim` computes the spec formula (in particular 55 for
layer_sizes (5,) with input_size 10), and for every freshly initialized network
the encoded solution vector has exactly `get_ndim` entries. -/
theorem get_ndim_formula_matches_encode_length :
    ∀ (ls : List Nat) (n : Nat) (g : Gen ℚ),
      get_ndim ls n = ndimFormula n ls ∧
      get_ndim [5] 10 = 55 ∧
      (encode (initLoop g n ls).1 (initLoop g n ls).2.1).length = get_ndim ls n := by
  intro ls n g
  refine ⟨get_ndim_eq_formula ls n, by decide, ?_⟩
  rw [encode_length]
  exact initLoop_encode_length ls n g

/-!
Model construction and the seeded determinism claim (C9).
-/

/-- The attribute state set by `MultiLayerELM.__init__` (src lines 35-50); the
activation function and the generator stream source are ambient parameters. -/
structure ELMModel where
  layer_sizes : List Nat
  gen : Gen ℚ
  weights : List (Mat ℚ)
  biases : List (List ℚ)
  beta : Option (Mat ℚ)
  input_size : Option Nat

/-- `MultiLayerELM.__init__` (src lines 35-50): store the topology and build the
seeded generator — `np.random.default_rng(seed)` is a pure function of the
seed, modelled by the ambient stream source `rngOf` — with weights and biases
empty and beta and input size unset. -/
def mkModel (rngOf : Nat → Nat → ℚ) (seed : Nat) (ls : List Nat) : ELMModel :=
  { layer_sizes := ls, gen := ⟨rngOf seed, 0⟩, weights := [], biases := [],
    beta := none, input_size := none }

/-- `MultiLayerELM.fit` (src lines 68-92) followed by `predict` (src lines
94-108): fix `input_size` from the data, reinitialize the weights from the
model generator, compute the hidden representation H, solve
`beta = pinv(H) . y`, and predict `H . beta` (the `none` prediction models the
LinAlgError raised when the pseudoinverse oracle fails). -/
def elmFitPredict (rngOf : Nat → Nat → ℚ) (actF : ℚ → ℚ)
    (pinvF : Mat ℚ → Option (Mat ℚ)) (seed : Nat) (ls : List Nat) (X y : Mat ℚ) :
    List (Mat ℚ) × List (List ℚ) × Mat ℚ × Option (Mat ℚ) :=
  let m := mkModel rngOf seed ls
  let input_size := (X.headD []).length
  let r := initLoop m.gen input_size m.layer_sizes
  let H := forward actF r.1 r.2.1 X
  match pinvF H with
  | none => (r.1, r.2.1, H, none)
  | some Hp => (r.1, r.2.1, H, some (matmul (forward actF r.1 r.2.1 X) (matmul Hp y)))

/-- Claim C9: two runs that each construct a fresh model from equal seeds with
the same topology and data produce bit-identical weights, biases, hidden
representation and prediction: the embedded generator is a pure function of the
seed alone, and the whole pipeline threads it explicitly with no other state. -/
theorem seeded_run_deterministic (rngOf : Nat → Nat → ℚ) (actF : ℚ → ℚ)
    (pinvF : Mat ℚ → Option (Mat ℚ)) (s1 s2 : Nat) (ls : List Nat) (X y : Mat ℚ)
    (h : s1 = s2) :
    elmFitPredict rngOf actF pinvF s1 ls X y = elmFitPredict rngOf actF pinvF s2 ls X y := by
  rw [h]

/-- Witness for C9 at the seed 7, one hidden unit, and one training sample. -/
theorem seeded_run_deterministic_witness :
    (7 : Nat) = 7 ∧
    elmFitPredict (fun _ _ => 0) id (fun _ => some [[1]]) 7 [1] [[1]] [[1]] =
      elmFitPredict (fun _ _ => 0) id (fun _ => some [[1]]) 7 [1] [[1]] [[1]] :=
  ⟨rfl, seeded_run_deterministic (fun _ _ => 0) id (fun _ => some [[1]]) 7 7 [1]
    [[1]] [[1]] rfl⟩
